import Mathlib

/-!
Verification of the commit-classification / version-bump / changelog engine of
`polaris-trade/libs` (scripts/bump-version.py and scripts/generate-changelog.py).

Strings are modelled as Lean `String` / `List Char`; the Python regular
expressions of the two scripts are deterministic on their inputs (no essential
backtracking, see the comments on each definition), so each is embedded as a
structurally recursive character-list function.  Python's `re` word class `\w`
and whitespace class `\s` are modelled at ASCII granularity, which covers the
character sets the scripts are used on.  A Python `ValueError` is modelled by
`Option.none`.
-/

namespace Polaris

/-- ASCII model of the regex word class used by `\w` in the scripts. -/
def isWordChar (c : Char) : Bool := c.isAlphanum || c == '_'

/-- ASCII model of Python whitespace (`str.strip`, regex `\s`). -/
def pySpace (c : Char) : Bool :=
  c == ' ' || c == '\t' || c == '\n' || c == '\r' || c == '\x0b' || c == '\x0c'

/-- Lower-case a character sequence (model of `re.IGNORECASE` at ASCII level). -/
def lowerStr (l : List Char) : List Char := l.map Char.toLower

/-- Index of the first occurrence of `needle` in `hay` (model of `re.search`
on a literal pattern), if any. -/
def findSubIdx (hay needle : List Char) : Option Nat :=
  (List.range (hay.length + 1)).find? (fun i => needle.isPrefixOf (hay.drop i))

/-- Substring containment (model of Python's `in` on strings). -/
def containsSub (hay needle : List Char) : Bool := (findSubIdx hay needle).isSome

/--
Model of the anchored alternative `^(\w+)(?:\([^)]+\))?!:` of the breaking
pattern of both scripts (bump-version.py line 98, generate-changelog.py line
114): one or more word characters, an optional non-empty parenthesised scope,
then `!:`.  The regex is deterministic: `\w+` must stop at the first non-word
character (`(` and `!` are not word characters) and `[^)]+` must stop at the
first `)`, so greedy matching never backtracks into a different split.
-/
def bangTypeStart (cs : List Char) : Bool :=
  if cs.takeWhile isWordChar = [] then false else
  match cs.drop (cs.takeWhile isWordChar).length with
  | '(' :: r =>
      if r.takeWhile (fun c => c != ')') = [] then false else
      (match r.drop (r.takeWhile (fun c => c != ')')).length with
       | ')' :: '!' :: ':' :: _ => true
       | _ => false)
  | '!' :: ':' :: _ => true
  | _ => false

/--
Model of the anchored pattern `^ty(?:\([^)]+\))?:` evaluated with `re.match`
and `re.IGNORECASE` (the `feat`/`fix`/`perf`/... rules of both scripts):
the literal type name, an optional non-empty parenthesised scope, then `:`.
`ty` is supplied already lower-cased.
-/
def typeColonStart (ty : List Char) (cs : List Char) : Bool :=
  if ty.isPrefixOf (lowerStr cs) then
    (match (lowerStr cs).drop ty.length with
     | '(' :: r =>
         if r.takeWhile (fun c => c != ')') = [] then false else
         (match r.drop (r.takeWhile (fun c => c != ')')).length with
          | ')' :: ':' :: _ => true
          | _ => false)
     | ':' :: _ => true
     | _ => false)
  else false

/--
Model of `re.search(r'^(\w+)(?:\([^)]+\))?!:|BREAKING CHANGE:', subject,
re.IGNORECASE)`, as used on the commit subject by both
`analyze_commits` (bump-version.py line 98/103) and `categorize_commits`
(generate-changelog.py line 114).  The first alternative is anchored by `^`
(no MULTILINE), the second may occur anywhere, case-insensitively.
-/
def breakingSearch (subject : List Char) : Bool :=
  bangTypeStart subject || containsSub (lowerStr subject) ("breaking change:".data)

/-- The reduced category set used by the bump decider (bump-version.py). -/
inductive RCat
  | breaking
  | feature
  | fix
  | other
deriving DecidableEq, Repr

/--
The reduced classifier: the `if/elif` chain of `analyze_commits`
(bump-version.py lines 102-110), which sees only the commit subject
(the commits are fetched with `--pretty=format:%s`).
-/
def classifyReduced (subject : List Char) : RCat :=
  if breakingSearch subject then .breaking
  else if typeColonStart "feat".data subject then .feature
  else if typeColonStart "fix".data subject then .fix
  else .other

/-- The full category set of `categorize_commits` (generate-changelog.py
lines 96-108), with the source's bucket names. -/
inductive Category
  | breaking
  | features
  | fixes
  | performance
  | refactor
  | docs
  | tests
  | build
  | ci
  | chore
  | other
deriving DecidableEq, Repr

/-- A commit record as built by `get_commits_since_tag`
(generate-changelog.py lines 81-87). -/
structure Commit where
  hash : String
  author : String
  date : String
  subject : String
  body : String
deriving DecidableEq, Repr

/--
The full classifier: the `if/elif` chain of `categorize_commits`
(generate-changelog.py lines 110-136).  The breaking rule is the same
subject search as the reduced classifier, plus the case-SENSITIVE check
`'BREAKING CHANGE' in commit['body']` (line 115, no colon required).
-/
def classifyFull (subject body : List Char) : Category :=
  if breakingSearch subject || containsSub body ("BREAKING CHANGE".data) then .breaking
  else if typeColonStart "feat".data subject then .features
  else if typeColonStart "fix".data subject then .fixes
  else if typeColonStart "perf".data subject then .performance
  else if typeColonStart "refactor".data subject then .refactor
  else if typeColonStart "docs".data subject then .docs
  else if typeColonStart "test".data subject then .tests
  else if typeColonStart "build".data subject then .build
  else if typeColonStart "ci".data subject then .ci
  else if typeColonStart "chore".data subject then .chore
  else .other

/-- Classification of a commit record by the changelog engine. -/
def classifyCommit (c : Commit) : Category := classifyFull c.subject.data c.body.data

/--
`categorize_commits` (generate-changelog.py lines 94-138) as the bucket map:
the Python loop appends each commit to the bucket of its first matching rule
in original order, which is exactly a stable filter by classified category.
-/
def categorize_commits (commits : List Commit) (c : Category) : List Commit :=
  commits.filter (fun cm => decide (classifyCommit cm = c))

/-- The four bucket lists built by `analyze_commits` (bump-version.py). -/
structure Breakdown where
  breaking : List String
  features : List String
  fixes : List String
  others : List String
deriving DecidableEq, Repr

/--
`analyze_commits` (bump-version.py lines 84-129): partition the subjects with
the reduced classifier (the loop appends in original order, i.e. a stable
filter), then derive the bump type from the highest non-empty bucket.
-/
def analyze_commits (commits : List String) : String × Breakdown :=
  let breaking_changes := commits.filter (fun c => decide (classifyReduced c.data = .breaking))
  let features := commits.filter (fun c => decide (classifyReduced c.data = .feature))
  let fixes := commits.filter (fun c => decide (classifyReduced c.data = .fix))
  let others := commits.filter (fun c => decide (classifyReduced c.data = .other))
  let bump_type :=
    if breaking_changes ≠ [] then "major"
    else if features ≠ [] then "minor"
    else if fixes ≠ [] then "patch"
    else "none"
  (bump_type, ⟨breaking_changes, features, fixes, others⟩)

/-- Decimal digit character for `d < 10` (Python's decimal rendering). -/
def digitChar (d : Nat) : Char := Char.ofNat (48 + d)

/-- Fuel-driven decimal rendering; `fuel` bounds the number of digits
(structural recursion so that concrete instances reduce in the kernel). -/
def natToDecAux (fuel : Nat) (n : Nat) : List Char :=
  match fuel with
  | 0 => []
  | fuel + 1 =>
    if n < 10 then [digitChar n]
    else natToDecAux fuel (n / 10) ++ [digitChar (n % 10)]

/-- Decimal rendering of a natural number, as Python's `f"{n}"` produces it
(`n + 1` units of fuel always suffice, since `n < 10 ^ (n + 1)`). -/
def natToDec (n : Nat) : List Char := natToDecAux (n + 1) n

/-- Value of a digit string, as Python's `int()` computes it on the groups
captured by `parse_version`. -/
def natOfDigits (l : List Char) : Nat :=
  l.foldl (fun a c => a * 10 + (c.toNat - 48)) 0

/--
`parse_version` (bump-version.py lines 132-137):
`re.match(r'v?(\d+)\.(\d+)\.(\d+)', version_str)`, i.e. an optional leading
`v`, then three non-empty digit runs separated by `.`, anchored at the start
only — trailing characters are ignored.  The regex is deterministic: `v?`
failing with the `v` consumed also fails without it (a digit is required and
`v` is not a digit), and each greedy `\d+` must stop at the first non-digit.
A failed match raises `ValueError` in the source, modelled as `none`.
The leading-`v` strip, one greedy digit group (`takeNum`), and the literal
`.` separators are factored for reuse in the proofs.
-/
def takeNum (cs : List Char) : Option (Nat × List Char) :=
  let d := cs.takeWhile Char.isDigit
  if d = [] then none else some (natOfDigits d, cs.drop d.length)

def parseVerChars (cs0 : List Char) : Option (Nat × Nat × Nat) :=
  let cs := if cs0.head? = some 'v' then cs0.tail else cs0
  match takeNum cs with
  | none => none
  | some (major, r1) =>
    match r1 with
    | '.' :: r1b =>
      (match takeNum r1b with
       | none => none
       | some (minor, r2) =>
         match r2 with
         | '.' :: r2b =>
           (match takeNum r2b with
            | none => none
            | some (patch, _) => some (major, minor, patch))
         | _ => none)
    | _ => none

def parse_version (s : String) : Option (Nat × Nat × Nat) := parseVerChars s.data

/-- The canonical `major.minor.patch` rendering used by every branch of
`bump_version`. -/
def renderVer (major minor patch : Nat) : List Char :=
  natToDec major ++ '.' :: natToDec minor ++ '.' :: natToDec patch

/--
`bump_version` (bump-version.py lines 140-151): parse, then re-render with
the bumped component; any `bump_type` other than major/minor/patch falls to
the final `else`, which re-renders the parsed triple unchanged.  The
`ValueError` of `parse_version` propagates, modelled as `none`.
-/
def bump_version (version bump_type : String) : Option String :=
  match parse_version version with
  | none => none
  | some (major, minor, patch) =>
    if bump_type = "major" then some (String.mk (renderVer (major + 1) 0 0))
    else if bump_type = "minor" then some (String.mk (renderVer major (minor + 1) 0))
    else if bump_type = "patch" then some (String.mk (renderVer major minor (patch + 1)))
    else some (String.mk (renderVer major minor patch))

/--
The prefix-stripping substitution of `format_commit_line`
(generate-changelog.py line 146): `re.sub(r'^(\w+)(?:\([^)]+\))?:\s*', '',
subject)`.  Anchored and without MULTILINE, so at most one replacement; the
same determinism argument as for `bangTypeStart` applies.  If the pattern
does not match, the subject is returned unchanged.
-/
def stripTypeTag (cs : List Char) : List Char :=
  if cs.takeWhile isWordChar = [] then cs else
  match cs.drop (cs.takeWhile isWordChar).length with
  | '(' :: r =>
      if r.takeWhile (fun c => c != ')') = [] then cs else
      (match r.drop (r.takeWhile (fun c => c != ')')).length with
       | ')' :: ':' :: r2 => r2.dropWhile pySpace
       | _ => cs)
  | ':' :: r2 => r2.dropWhile pySpace
  | _ => cs

/-- `format_commit_line` (generate-changelog.py lines 141-148). -/
def format_commit_line (c : Commit) : String :=
  "- " ++ String.mk (stripTypeTag c.subject.data)
    ++ " ([" ++ c.hash ++ "](../../commit/" ++ c.hash ++ "))"

/--
The `section_map` of `generate_changelog_section` (generate-changelog.py
lines 156-166), in the source's insertion order, with the source's literal
title strings (the file stores them as the mojibake codepoints given here)
and `important` flags (the flag is never read by the rendering loop).
-/
def sectionMap : List (Category × String × Bool) :=
  [ (.breaking, "\uf8ff\u00fc\u00ed\u2022 Breaking Changes", true),
    (.features, "\u201a\u00fa\u00ae Features", true),
    (.fixes, "\uf8ff\u00fc\u00ea\u00f5 Bug Fixes", true),
    (.performance, "\uf8ff\u00fc\u00f6\u00c4 Performance", true),
    (.refactor, "\u201a\u00f4\u00aa\u00d4\u220f\u00e8 Refactoring", false),
    (.docs, "\uf8ff\u00fc\u00ec\u00f6 Documentation", false),
    (.tests, "\u201a\u00fa\u00d6 Tests", false),
    (.build, "\uf8ff\u00fc\u00ee\u00ae Build System", false),
    (.ci, "\u201a\u00f6\u00f4\u00d4\u220f\u00e8 CI/CD", false) ]

/-- The inner commit loop of `generate_changelog_section` (lines 171-172). -/
def commitLines (l : List Commit) : String :=
  l.foldl (fun a c => a ++ format_commit_line c ++ "\n") ""

/--
`generate_changelog_section` (generate-changelog.py lines 151-175).  The
source reads the date from `datetime.now()` — the engine's only impure
input — so the embedding takes `today` as a parameter.
-/
def generate_changelog_section (version today : String)
    (categories : Category → List Commit) : String :=
  sectionMap.foldl
    (fun changelog p =>
      if categories p.1 = [] then changelog
      else changelog ++ "### " ++ p.2.1 ++ "\n\n" ++ commitLines (categories p.1) ++ "\n")
    ("## [" ++ version ++ "] - " ++ today ++ "\n\n")

/-- Python's `str.split('\n')`. -/
def splitNl : List Char → List (List Char)
  | [] => [[]]
  | '\n' :: r => [] :: splitNl r
  | c :: r =>
    match splitNl r with
    | h :: t => (c :: h) :: t
    | [] => [[c]]

/-- Python's `'\n'.join`. -/
def joinNl : List (List Char) → List Char
  | [] => []
  | [l] => l
  | l :: rest => l ++ '\n' :: joinNl rest

/-- Python truthiness of `line.strip()`: some non-whitespace character. -/
def strippedTruthy (l : List Char) : Bool := l.any (fun c => !pySpace c)

/-- The synthesized preamble of `update_changelog`
(generate-changelog.py lines 209-219, the part before the new section). -/
def changelogPreamble : String :=
  "# Changelog\n\nAll notable changes to this project will be documented in this file.\n\nThe format is based on [Keep a Changelog](https://keepachangelog.com/en/1.0.0/),\nand this project adheres to [Semantic Versioning](https://semver.org/spec/v2.0.0.html).\n\n## [Unreleased]\n\n"

/--
The content transformation of `update_changelog` (generate-changelog.py
lines 186-222): given the existing document (empty when the file does not
exist) and the new section, produce the written document.  When the
document is non-empty, `re.search(r'\n## \[', existing)` looks for the first
occurrence of that literal; on success the section is inserted after the
matched newline; otherwise the loop of lines 200-204 finds the index of the
first non-blank line not starting with `#` (the `header_end = 0`
initialisation of line 200 is kept when no such line exists), and the
section is spliced between `'\n'.join` of the line prefix and suffix.
-/
def update_changelog_content (existing new_section : String) : String :=
  if existing = "" then changelogPreamble ++ new_section ++ "\n"
  else
    match findSubIdx existing.data ("\n## [".data) with
    | some i =>
        String.mk (existing.data.take (i + 1)) ++ new_section
          ++ String.mk (existing.data.drop (i + 1))
    | none =>
        let lines := splitNl existing.data
        let header_end :=
          (lines.findIdx? (fun l => strippedTruthy l && !(l.head? == some '#'))).getD 0
        String.mk (joinNl (lines.take header_end)) ++ "\n\n" ++ new_section
          ++ String.mk (joinNl (lines.drop header_end))

/-- The full category set in the fixed insertion order of the `categories`
dict of `categorize_commits` (generate-changelog.py lines 96-108). -/
def allCats : List Category :=
  [.breaking, .features, .fixes, .performance, .refactor, .docs, .tests, .build, .ci,
   .chore, .other]

/-- Concatenation of a list of document fragments (specification side of the
changelog-section rendering). -/
def concatStrs : List String → String
  | [] => ""
  | frag :: t => frag ++ concatStrs t

end Polaris

namespace Polaris

example : classifyReduced "feat!: drop field".data = .breaking := by decide
example : classifyReduced "feat(api): x".data = .feature := by decide
example : classifyReduced "Fix: y".data = .fix := by decide
example : classifyReduced "chore: update deps".data = .other := by decide
example : classifyFull "chore: update deps".data "BREAKING CHANGE: removed X".data
    = .breaking := by decide
example : classifyFull "chore: update deps".data "".data = .chore := by decide
example : (analyze_commits []).1 = "none" := by decide
example : (analyze_commits ["fix: a", "feat: b"]).1 = "minor" := by decide

end Polaris

namespace Polaris

/-! ### Helper lemmas -/

theorem takeWhile_append_of {α : Type} (p : α → Bool) (l r : List α)
    (hl : ∀ c ∈ l, p c = true) (hr : ∀ c, r.head? = some c → p c = false) :
    (l ++ r).takeWhile p = l := by
  induction l with
  | nil =>
    cases r with
    | nil => rfl
    | cons c t => simp [List.takeWhile_cons, hr c rfl]
  | cons c t ih =>
    simp only [List.cons_append, List.takeWhile_cons, hl c (by simp)]
    rw [ih (fun x hx => hl x (by simp [hx]))]
    simp

theorem digitChar_toNat {d : Nat} (h : d < 10) : (digitChar d).toNat = 48 + d := by
  interval_cases d <;> decide

theorem digitChar_isDigit {d : Nat} (h : d < 10) : (digitChar d).isDigit = true := by
  interval_cases d <;> decide

theorem isDigit_ne_v {c : Char} (h : c.isDigit = true) : c ≠ 'v' := by
  intro he; subst he; simp at h

theorem lt_pow_fuel (n : Nat) : n < 10 ^ (n + 1) := by
  calc n < n + 1 := Nat.lt_succ_self n
  _ ≤ 10 ^ n * 1 + 1 := by
      have := Nat.one_le_two_pow (n := n)
      have h10 : n ≤ 10 ^ n := Nat.le_of_lt (Nat.lt_pow_self (by norm_num) n)
      omega
  _ ≤ 10 ^ (n + 1) := by
      have : 10 ^ n * 1 + 1 ≤ 10 ^ n * 10 := by nlinarith [Nat.one_le_two_pow (n := 0), pow_pos (show 0 < 10 by norm_num) n]
      simpa [pow_succ] using this

theorem natToDecAux_ne_nil (fuel n : Nat) : natToDecAux (fuel + 1) n ≠ [] := by
  simp only [natToDecAux]
  split
  · simp
  · simp

theorem natToDec_ne_nil (n : Nat) : natToDec n ≠ [] := natToDecAux_ne_nil n n

theorem natToDecAux_digits (fuel : Nat) :
    ∀ n, n < 10 ^ fuel → ∀ c ∈ natToDecAux fuel n, c.isDigit = true := by
  induction fuel with
  | zero =>
    intro n hn c hc
    simp [natToDecAux] at hc
  | succ fuel ih =>
    intro n hn c hc
    simp only [natToDecAux] at hc
    split at hc
    next h =>
      simp only [List.mem_singleton] at hc
      subst hc
      exact digitChar_isDigit h
    next h =>
      rcases List.mem_append.mp hc with h2 | h2
      · refine ih (n / 10) ?_ c h2
        rw [pow_succ] at hn
        omega
      · simp only [List.mem_singleton] at h2
        subst h2
        exact digitChar_isDigit (Nat.mod_lt _ (by omega))

theorem natToDec_digits (n : Nat) : ∀ c ∈ natToDec n, c.isDigit = true :=
  natToDecAux_digits (n + 1) n (lt_pow_fuel n)

theorem natOfDigits_go (fuel : Nat) :
    ∀ n, n < 10 ^ fuel → ∀ a : Nat,
      List.foldl (fun a c => a * 10 + (c.toNat - 48)) a (natToDecAux fuel n)
        = a * 10 ^ (natToDecAux fuel n).length + n := by
  induction fuel with
  | zero =>
    intro n hn a
    have : n = 0 := by simpa using hn
    subst this
    simp [natToDecAux]
  | succ fuel ih =>
    intro n hn a
    simp only [natToDecAux]
    split
    next h =>
      simp only [List.foldl_cons, List.foldl_nil, List.length_singleton]
      rw [digitChar_toNat h]
      omega
    next h =>
      have hdiv : n / 10 < 10 ^ fuel := by
        rw [pow_succ] at hn
        omega
      rw [List.foldl_append, List.length_append]
      rw [ih (n / 10) hdiv a]
      simp only [List.foldl_cons, List.foldl_nil, List.length_singleton]
      rw [digitChar_toNat (Nat.mod_lt _ (by omega))]
      have hp : 10 ^ ((natToDecAux fuel (n / 10)).length + 1)
          = 10 ^ (natToDecAux fuel (n / 10)).length * 10 := by rw [pow_succ]
      rw [hp]
      ring_nf
      omega

theorem natOfDigits_natToDec (n : Nat) : natOfDigits (natToDec n) = n := by
  have := natOfDigits_go (n + 1) n (lt_pow_fuel n) 0
  simpa [natOfDigits, natToDec] using this

theorem takeNum_append (a r : List Char) (ha0 : a ≠ [])
    (ha : ∀ c ∈ a, c.isDigit = true)
    (hr : ∀ c, r.head? = some c → c.isDigit = false) :
    takeNum (a ++ r) = some (natOfDigits a, r) := by
  unfold takeNum
  rw [takeWhile_append_of _ a r ha hr]
  simp only [ha0, if_false, List.drop_left]

end Polaris

namespace Polaris

theorem parseVerChars_render (M m p : Nat) (suffix : List Char)
    (hs : ∀ c, suffix.head? = some c → c.isDigit = false) :
    parseVerChars (renderVer M m p ++ suffix) = some (M, m, p) ∧
    parseVerChars ('v' :: (renderVer M m p ++ suffix)) = some (M, m, p) := by
  have shape : renderVer M m p ++ suffix
      = natToDec M ++ ('.' :: (natToDec m ++ ('.' :: (natToDec p ++ suffix)))) := by
    simp [renderVer]
  have hdot : ∀ (X : List Char) (c : Char), ('.' :: X).head? = some c → c.isDigit = false := by
    intro X c hc
    simp only [List.head?_cons, Option.some.injEq] at hc
    subst hc
    decide
  have t3 : takeNum (natToDec p ++ suffix) = some (p, suffix) := by
    have h := takeNum_append (natToDec p) suffix (natToDec_ne_nil p) (natToDec_digits p) hs
    rwa [natOfDigits_natToDec] at h
  have t2 : takeNum (natToDec m ++ ('.' :: (natToDec p ++ suffix)))
      = some (m, '.' :: (natToDec p ++ suffix)) := by
    have h := takeNum_append (natToDec m) ('.' :: (natToDec p ++ suffix))
      (natToDec_ne_nil m) (natToDec_digits m) (hdot (natToDec p ++ suffix))
    rwa [natOfDigits_natToDec] at h
  have t1 : takeNum (natToDec M ++ ('.' :: (natToDec m ++ ('.' :: (natToDec p ++ suffix)))))
      = some (M, '.' :: (natToDec m ++ ('.' :: (natToDec p ++ suffix)))) := by
    have h := takeNum_append (natToDec M) ('.' :: (natToDec m ++ ('.' :: (natToDec p ++ suffix))))
      (natToDec_ne_nil M) (natToDec_digits M) (hdot (natToDec m ++ ('.' :: (natToDec p ++ suffix))))
    rwa [natOfDigits_natToDec] at h
  obtain ⟨c0, t0, h0⟩ := List.exists_cons_of_ne_nil (natToDec_ne_nil M)
  have hc0 : c0.isDigit = true := natToDec_digits M c0 (by rw [h0]; exact List.mem_cons_self c0 t0)
  constructor
  · rw [shape]
    have hhd : ¬ ((natToDec M).head? = some 'v') := by
      rw [h0]
      simp only [List.head?_cons, Option.some.injEq]
      intro h
      exact isDigit_ne_v hc0 h
    simp [parseVerChars, hhd, t1, t2, t3]
  · rw [shape]
    simp [parseVerChars, t1, t2, t3]

theorem parse_render (M m p : Nat) :
    parse_version (String.mk (renderVer M m p)) = some (M, m, p) := by
  have h := (parseVerChars_render M m p [] (fun c hc => by simp at hc)).1
  rw [List.append_nil] at h
  exact h

end Polaris

namespace Polaris

theorem exists_iff_filter_ne {α : Type} (p : α → Prop) [DecidablePred p] (l : List α) :
    (l.filter (fun x => decide (p x)) ≠ []) ↔ ∃ x ∈ l, p x := by
  rw [Ne, List.filter_eq_nil_iff]
  push_neg
  simp

/--
**C1** (counterexample): the claim asserts that the reduced classifier of
`analyze_commits` marks a commit breaking iff the full classifier of
`categorize_commits` does, and in particular that a commit with subject
`chore: update deps` and body `BREAKING CHANGE: removed X` is breaking for
both.  It is not: the bump decider consumes subject-only records
(`--pretty=format:%s`), so the body-based `BREAKING CHANGE` detection of the
changelog engine has no counterpart there, and this very commit is classified
`other` by the reduced classifier while the full classifier marks it breaking.
-/
theorem c1_counterexample :
    ¬ (classifyReduced ("chore: update deps".data) = RCat.breaking ↔
       classifyFull ("chore: update deps".data) ("BREAKING CHANGE: removed X".data)
         = Category.breaking) := by decide

/--
**C1** (amended): for every commit record whose body does not contain the
substring `BREAKING CHANGE`, the reduced classifier used by the bump decider
classifies the subject as breaking iff the full classifier used by the
changelog engine does — the two subject-side breaking detections are
identical, and they diverge exactly on the body check, which only the
changelog engine performs.
-/
theorem c1_breaking_agreement (subject body : List Char)
    (h : containsSub body ("BREAKING CHANGE".data) = false) :
    (classifyReduced subject = RCat.breaking ↔
     classifyFull subject body = Category.breaking) := by
  unfold classifyReduced classifyFull
  rw [h]
  by_cases hb : breakingSearch subject = true
  · simp [hb]
  · simp only [hb, Bool.or_false, if_neg, Bool.false_eq_true, if_false]
    split_ifs <;> simp

theorem c1_witness :
    containsSub ("".data) ("BREAKING CHANGE".data) = false ∧
    (classifyReduced ("feat!: drop field".data) = RCat.breaking ↔
     classifyFull ("feat!: drop field".data) ("".data) = Category.breaking) :=
  ⟨by decide, c1_breaking_agreement ("feat!: drop field".data) ("".data) (by decide)⟩

/--
**C2**: `analyze_commits` returns bump type `major` when some commit
classifies as breaking under the reduced rule set, else `minor` when some
commit classifies as feature, else `patch` when some commit classifies as
fix, else `none`; together with the spec's four concrete cases (empty
history, fix-only, fix + feature, fix + feature + breaking).
-/
theorem c2_decide_bump :
    (∀ commits : List String,
      (analyze_commits commits).1 =
        if ∃ c ∈ commits, classifyReduced c.data = RCat.breaking then "major"
        else if ∃ c ∈ commits, classifyReduced c.data = RCat.feature then "minor"
        else if ∃ c ∈ commits, classifyReduced c.data = RCat.fix then "patch"
        else "none")
    ∧ (analyze_commits []).1 = "none"
    ∧ (analyze_commits ["fix: a", "fix(api): b"]).1 = "patch"
    ∧ (analyze_commits ["fix: a", "feat: b"]).1 = "minor"
    ∧ (analyze_commits ["fix: a", "feat: b", "refactor!: drop api"]).1 = "major" := by
  refine ⟨?_, by decide, by decide, by decide, by decide⟩
  intro commits
  simp only [analyze_commits]
  exact if_congr (exists_iff_filter_ne _ commits) rfl
    (if_congr (exists_iff_filter_ne _ commits) rfl
      (if_congr (exists_iff_filter_ne _ commits) rfl rfl))

theorem bump_version_some {s : String} {a b c : Nat}
    (h : parse_version s = some (a, b, c)) (bt : String) :
    bump_version s bt =
      if bt = "major" then some (String.mk (renderVer (a + 1) 0 0))
      else if bt = "minor" then some (String.mk (renderVer a (b + 1) 0))
      else if bt = "patch" then some (String.mk (renderVer a b (c + 1)))
      else some (String.mk (renderVer a b c)) := by
  unfold bump_version
  rw [h]

/--
**C3**: on every version string the parser accepts as `(major, minor,
patch)`, `bump_version` renders `(major+1, 0, 0)` for a major bump,
`(major, minor+1, 0)` for minor and `(major, minor, patch+1)` for patch;
concretely `2.3.4` bumps to `3.0.0` / `2.4.0` / `2.3.5`.
-/
theorem c3_apply_bump :
    (∀ (s : String) (major minor patch : Nat),
      parse_version s = some (major, minor, patch) →
      bump_version s "major" = some (String.mk (renderVer (major + 1) 0 0)) ∧
      bump_version s "minor" = some (String.mk (renderVer major (minor + 1) 0)) ∧
      bump_version s "patch" = some (String.mk (renderVer major minor (patch + 1))))
    ∧ bump_version "2.3.4" "major" = some "3.0.0"
    ∧ bump_version "2.3.4" "minor" = some "2.4.0"
    ∧ bump_version "2.3.4" "patch" = some "2.3.5" := by
  refine ⟨?_, by decide, by decide, by decide⟩
  intro s major minor patch h
  refine ⟨?_, ?_, ?_⟩
  · rw [bump_version_some h, if_pos rfl]
  · rw [bump_version_some h, if_neg (by decide), if_pos rfl]
  · rw [bump_version_some h, if_neg (by decide), if_neg (by decide), if_pos rfl]

theorem c3_witness :
    bump_version "2.3.4" "major" = some (String.mk (renderVer 3 0 0)) :=
  (c3_apply_bump.1 "2.3.4" 2 3 4 (by decide)).1

/--
**C4**: the bump computation fails (the `ValueError` of `parse_version`,
modelled as `none`) iff the version string does not match the leading
`v?<major>.<minor>.<patch>` pattern; whenever the leading pattern matches —
in particular on any `major.minor.patch` rendering followed by an arbitrary
non-digit-initial suffix, with or without a leading `v` — parsing succeeds,
the suffix is ignored (not preserved), and the bump succeeds; and
`bump_version "not-a-version" "patch"` fails.
-/
theorem c4_invalid_version :
    (∀ (s bump_type : String), bump_version s bump_type = none ↔ parse_version s = none)
    ∧ (∀ (major minor patch : Nat) (suffix : List Char),
        (∀ c, suffix.head? = some c → c.isDigit = false) →
        parse_version (String.mk (renderVer major minor patch ++ suffix))
            = some (major, minor, patch) ∧
        parse_version (String.mk ('v' :: (renderVer major minor patch ++ suffix)))
            = some (major, minor, patch) ∧
        bump_version (String.mk (renderVer major minor patch ++ suffix)) "patch"
            = some (String.mk (renderVer major minor (patch + 1))))
    ∧ bump_version "not-a-version" "patch" = none := by
  refine ⟨?_, ?_, by decide⟩
  · intro s bt
    unfold bump_version
    cases h : parse_version s with
    | none => simp
    | some t =>
      obtain ⟨a, b, c⟩ := t
      constructor
      · intro hh
        split_ifs at hh
      · intro hh
        cases hh
  · intro a b c suffix hs
    have h := parseVerChars_render a b c suffix hs
    refine ⟨h.1, h.2, ?_⟩
    have hp : parse_version (String.mk (renderVer a b c ++ suffix)) = some (a, b, c) := h.1
    rw [bump_version_some hp, if_neg (by decide), if_neg (by decide), if_pos rfl]

theorem c4_witness :
    parse_version (String.mk (renderVer 2 3 4 ++ "-rc1".data)) = some (2, 3, 4) ∧
    parse_version (String.mk ('v' :: (renderVer 2 3 4 ++ "-rc1".data))) = some (2, 3, 4) ∧
    bump_version (String.mk (renderVer 2 3 4 ++ "-rc1".data)) "patch"
      = some (String.mk (renderVer 2 3 5)) :=
  c4_invalid_version.2.1 2 3 4 ("-rc1".data)
    (fun c hc => by
      rw [show ("-rc1".data).head? = some '-' from rfl] at hc
      injection hc with h2
      subst h2
      decide)

/--
**C5** (counterexample): the claim asserts bump level `none` is the identity
on every version string the parser accepts.  `"v2.3.4"` is accepted, yet
`bump_version "v2.3.4" "none"` returns `"2.3.4"`, not `"v2.3.4"`: every
branch of `bump_version` re-renders the parsed triple canonically, dropping
the `v` prefix (and any trailing metadata).
-/
theorem c5_counterexample :
    parse_version "v2.3.4" = some (2, 3, 4) ∧
    bump_version "v2.3.4" "none" = some "2.3.4" ∧
    bump_version "v2.3.4" "none" ≠ some "v2.3.4" := by decide

/--
**C5** (amended): on every version string the parser accepts as `(major,
minor, patch)`, bump level `none` returns the canonical
`major.minor.patch` rendering of the parsed triple — so it is the identity
exactly on strings already in canonical form, and in particular on every
`String.mk (renderVer major minor patch)`.
-/
theorem c5_none_canonical :
    (∀ (s : String) (major minor patch : Nat),
      parse_version s = some (major, minor, patch) →
      bump_version s "none" = some (String.mk (renderVer major minor patch)))
    ∧ (∀ major minor patch : Nat,
        bump_version (String.mk (renderVer major minor patch)) "none"
          = some (String.mk (renderVer major minor patch))) := by
  have general : ∀ (s : String) (a b c : Nat), parse_version s = some (a, b, c) →
      bump_version s "none" = some (String.mk (renderVer a b c)) := by
    intro s a b c h
    rw [bump_version_some h, if_neg (by decide), if_neg (by decide), if_neg (by decide)]
  exact ⟨general, fun a b c => general _ a b c (parse_render a b c)⟩

theorem c5_witness :
    bump_version "v2.3.4" "none" = some (String.mk (renderVer 2 3 4)) :=
  c5_none_canonical.1 "v2.3.4" 2 3 4 (by decide)

end Polaris

namespace Polaris

theorem head_cons_not {p : Char → Bool} {c : Char} (hc : p c = false) :
    ∀ x : Char, ∀ {r : List Char}, (c :: r).head? = some x → p x = false := by
  intro x r hx
  rw [List.head?_cons] at hx
  injection hx with h2
  subst h2
  exact hc

theorem bang_plain (ty rest : List Char) (h0 : ty ≠ [])
    (hw : ∀ c ∈ ty, isWordChar c = true) :
    bangTypeStart (ty ++ '!' :: ':' :: rest) = true := by
  have e : (ty ++ '!' :: ':' :: rest).takeWhile isWordChar = ty :=
    takeWhile_append_of _ ty _ hw (fun x hx => head_cons_not (by decide) x hx)
  unfold bangTypeStart
  simp only [e, if_neg h0, List.drop_left]

theorem bang_scoped (ty scope rest : List Char) (h0 : ty ≠ [])
    (hw : ∀ c ∈ ty, isWordChar c = true)
    (s0 : scope ≠ []) (hsc : ∀ c ∈ scope, c ≠ ')') :
    bangTypeStart (ty ++ '(' :: (scope ++ ')' :: '!' :: ':' :: rest)) = true := by
  have e : (ty ++ '(' :: (scope ++ ')' :: '!' :: ':' :: rest)).takeWhile isWordChar = ty :=
    takeWhile_append_of _ ty _ hw (fun x hx => head_cons_not (by decide) x hx)
  have e2 : (scope ++ ')' :: '!' :: ':' :: rest).takeWhile (fun c => c != ')') = scope :=
    takeWhile_append_of (fun c => c != ')') scope _ (fun c hc => by simpa using hsc c hc)
      (fun x hx => head_cons_not (p := fun c => c != ')') (by decide) x hx)
  unfold bangTypeStart
  simp only [e, if_neg h0, List.drop_left, e2, if_neg s0]

/--
**C6**: every commit subject of the form `type!: ...` or `type(scope)!: ...`
(a `!` immediately before the colon, with a word-character type and a
non-empty scope free of `)`) is classified breaking by both the reduced
classifier of the bump decider and the full classifier of the changelog
engine, whatever the body: the breaking rule is evaluated first and wins.
-/
theorem c6_bang_breaking (ty scope rest body : List Char)
    (h0 : ty ≠ []) (hw : ∀ c ∈ ty, isWordChar c = true)
    (s0 : scope ≠ []) (hsc : ∀ c ∈ scope, c ≠ ')') :
    classifyReduced (ty ++ '!' :: ':' :: rest) = RCat.breaking ∧
    classifyFull (ty ++ '!' :: ':' :: rest) body = Category.breaking ∧
    classifyReduced (ty ++ '(' :: (scope ++ ')' :: '!' :: ':' :: rest)) = RCat.breaking ∧
    classifyFull (ty ++ '(' :: (scope ++ ')' :: '!' :: ':' :: rest)) body
      = Category.breaking := by
  have s1 : breakingSearch (ty ++ '!' :: ':' :: rest) = true := by
    simp [breakingSearch, bang_plain ty rest h0 hw]
  have s2 : breakingSearch (ty ++ '(' :: (scope ++ ')' :: '!' :: ':' :: rest)) = true := by
    simp [breakingSearch, bang_scoped ty scope rest h0 hw s0 hsc]
  refine ⟨?_, ?_, ?_, ?_⟩ <;> simp [classifyReduced, classifyFull, s1, s2]

theorem c6_witness :
    classifyReduced ("feat".data ++ '!' :: ':' :: " drop field".data) = RCat.breaking ∧
    classifyFull ("feat".data ++ '!' :: ':' :: " drop field".data) ("".data)
      = Category.breaking ∧
    classifyReduced ("feat".data ++ '(' :: ("api".data ++ ')' :: '!' :: ':' :: " drop field".data))
      = RCat.breaking ∧
    classifyFull ("feat".data ++ '(' :: ("api".data ++ ')' :: '!' :: ':' :: " drop field".data))
      ("".data) = Category.breaking :=
  c6_bang_breaking ("feat".data) ("api".data) (" drop field".data) ("".data)
    (by decide) (by decide) (by decide) (by decide)

theorem strip_of_bang (cs : List Char) (h : bangTypeStart cs = true) :
    stripTypeTag cs = cs := by
  unfold bangTypeStart at h
  unfold stripTypeTag
  by_cases h0 : cs.takeWhile isWordChar = []
  · simp [h0] at h
  · rw [if_neg h0] at h
    rw [if_neg h0]
    split at h
    next r heq =>
      rw [heq]
      by_cases hinner : r.takeWhile (fun c => c != ')') = []
      · rw [if_pos hinner] at h
        exact absurd h (by simp)
      · rw [if_neg hinner] at h
        split at h
        next rest2 heq2 =>
          show (if r.takeWhile (fun c => c != ')') = [] then cs
            else match r.drop (r.takeWhile (fun c => c != ')')).length with
             | ')' :: ':' :: r2 => r2.dropWhile pySpace
             | _ => cs) = cs
          rw [if_neg hinner, heq2]
          rfl
        next => exact absurd h (by simp)
    next rest heq =>
      rw [heq]
      rfl
    next => exact absurd h (by simp)

/--
**C10**: a commit whose subject starts with a breaking-marked prefix
`type!:` or `type(scope)!:` (i.e. matches the breaking bang pattern) keeps
its full subject in the formatted changelog line: the prefix-stripping
substitution only removes `type:` / `type(scope):` prefixes without the `!`
marker, so it leaves such subjects unchanged.
-/
theorem c10_breaking_kept (c : Commit) (h : bangTypeStart c.subject.data = true) :
    format_commit_line c
      = "- " ++ c.subject ++ " ([" ++ c.hash ++ "](../../commit/" ++ c.hash ++ "))" := by
  unfold format_commit_line
  rw [strip_of_bang _ h]

theorem c10_witness :
    format_commit_line ⟨"abc1234", "an author", "2026-01-01", "feat(api)!: drop field", ""⟩
      = "- " ++ "feat(api)!: drop field" ++ " ([" ++ "abc1234"
        ++ "](../../commit/" ++ "abc1234" ++ "))" :=
  c10_breaking_kept ⟨"abc1234", "an author", "2026-01-01", "feat(api)!: drop field", ""⟩
    (by decide)

end Polaris

namespace Polaris

theorem foldl_render (cats : Category → List Commit) (l : List (Category × String × Bool)) :
    ∀ acc : String,
      l.foldl
        (fun changelog p =>
          if cats p.1 = [] then changelog
          else changelog ++ "### " ++ p.2.1 ++ "\n\n" ++ commitLines (cats p.1) ++ "\n") acc
      = acc ++ concatStrs (l.map (fun p =>
          if cats p.1 = [] then ""
          else "### " ++ p.2.1 ++ "\n\n" ++ commitLines (cats p.1) ++ "\n")) := by
  induction l with
  | nil =>
    intro acc
    simp [concatStrs, String.append_empty]
  | cons q t ih =>
    intro acc
    simp only [List.foldl_cons, List.map_cons, concatStrs]
    rw [ih]
    by_cases hq : cats q.1 = []
    · rw [if_pos hq, if_pos hq, String.empty_append]
    · rw [if_neg hq, if_neg hq]
      simp only [String.append_assoc]

/--
**C8**: `generate_changelog_section` renders exactly the version header
followed by one subsection per non-empty category in the fixed presentation
order of `section_map` (breaking, features, fixes, performance, refactor,
docs, tests, build, ci); empty categories contribute nothing, the output
does not depend on the chore and other buckets even when they are
non-empty, and with all buckets empty the output is the bare header.
-/
theorem c8_render_sections :
    (∀ (v d : String) (cats : Category → List Commit),
      generate_changelog_section v d cats
        = "## [" ++ v ++ "] - " ++ d ++ "\n\n"
          ++ concatStrs (sectionMap.map (fun p =>
              if cats p.1 = [] then ""
              else "### " ++ p.2.1 ++ "\n\n" ++ commitLines (cats p.1) ++ "\n")))
    ∧ (∀ (v d : String) (cats : Category → List Commit),
        generate_changelog_section v d cats
          = generate_changelog_section v d
              (fun c => if c = Category.chore ∨ c = Category.other then [] else cats c))
    ∧ (∀ v d : String,
        generate_changelog_section v d (fun _ => []) = "## [" ++ v ++ "] - " ++ d ++ "\n\n") := by
  have key : ∀ (v d : String) (cats : Category → List Commit),
      generate_changelog_section v d cats
        = "## [" ++ v ++ "] - " ++ d ++ "\n\n"
          ++ concatStrs (sectionMap.map (fun p =>
              if cats p.1 = [] then ""
              else "### " ++ p.2.1 ++ "\n\n" ++ commitLines (cats p.1) ++ "\n")) := by
    intro v d cats
    unfold generate_changelog_section
    exact foldl_render cats sectionMap _
  refine ⟨key, ?_, ?_⟩
  · intro v d cats
    have hmap : (sectionMap.map (fun p =>
          if cats p.1 = [] then ""
          else "### " ++ p.2.1 ++ "\n\n" ++ commitLines (cats p.1) ++ "\n"))
        = (sectionMap.map (fun p =>
            if (if p.1 = Category.chore ∨ p.1 = Category.other then [] else cats p.1) = [] then ""
            else "### " ++ p.2.1 ++ "\n\n"
              ++ commitLines (if p.1 = Category.chore ∨ p.1 = Category.other then [] else cats p.1)
              ++ "\n")) := by
      apply List.map_congr_left
      intro p hp
      fin_cases hp <;> simp
    rw [key, key, hmap]
  · intro v d
    rw [key]
    simp [sectionMap, concatStrs, String.empty_append, String.append_empty]

end Polaris

namespace Polaris

theorem count_filter_decide {α β : Type} [DecidableEq α] [DecidableEq β]
    (f : α → β) (x : α) (l : List α) (c : β) :
    (l.filter (fun y => decide (f y = c))).count x
      = if f x = c then l.count x else 0 := by
  by_cases hx : f x = c
  · rw [if_pos hx]
    exact List.count_filter (by simp [hx])
  · rw [if_neg hx]
    rw [List.count_eq_zero]
    intro hmem
    rcases List.mem_filter.mp hmem with ⟨h1, h2⟩
    exact hx (by simpa using h2)

theorem categorize_count (commits : List Commit) (x : Commit) (c : Category) :
    (categorize_commits commits c).count x
      = if classifyCommit x = c then commits.count x else 0 :=
  count_filter_decide classifyCommit x commits c

theorem flatten_count (commits : List Commit) (x : Commit) :
    ((allCats.map (fun c => categorize_commits commits c)).flatten).count x
      = commits.count x := by
  rw [List.count_flatten, List.map_map]
  have e : (allCats.map (List.count x ∘ fun c => categorize_commits commits c))
      = allCats.map (fun c => if classifyCommit x = c then commits.count x else 0) := by
    apply List.map_congr_left
    intro c hc
    exact categorize_count commits x c
  rw [e]
  cases hk : classifyCommit x <;> simp [allCats, hk]

theorem order_perm_allCats (order : List Category) (h1 : order.Nodup)
    (h2 : ∀ c : Category, c ∈ order) : order.Perm allCats := by
  rw [List.perm_iff_count]
  intro c
  have hle := List.nodup_iff_count_le_one.mp h1 c
  have hge := List.count_pos_iff.mpr (h2 c)
  have hall : allCats.count c = 1 := by cases c <;> decide
  omega

/--
**C7**: the classification is a partition: for any fixed category order that
enumerates each category exactly once, concatenating the buckets of
`categorize_commits` yields a permutation of the input commits (each commit
is in exactly one bucket, nothing duplicated or dropped), and each bucket is
a sublist of the input (insertion order preserves original commit order);
likewise for the four buckets of `analyze_commits` in their fixed order.
-/
theorem c7_partition (commits : List Commit) (order : List Category)
    (h1 : order.Nodup) (h2 : ∀ c : Category, c ∈ order) :
    ((order.map (fun c => categorize_commits commits c)).flatten).Perm commits
    ∧ (∀ c : Category, (categorize_commits commits c).Sublist commits)
    ∧ (∀ subjects : List String,
        ((analyze_commits subjects).2.breaking ++ (analyze_commits subjects).2.features
          ++ (analyze_commits subjects).2.fixes
          ++ (analyze_commits subjects).2.others).Perm subjects
        ∧ (analyze_commits subjects).2.breaking.Sublist subjects
        ∧ (analyze_commits subjects).2.features.Sublist subjects
        ∧ (analyze_commits subjects).2.fixes.Sublist subjects
        ∧ (analyze_commits subjects).2.others.Sublist subjects) := by
  refine ⟨?_, ?_, ?_⟩
  · have hperm : (order.map (fun c => categorize_commits commits c)).Perm
        (allCats.map (fun c => categorize_commits commits c)) :=
      (order_perm_allCats order h1 h2).map _
    refine hperm.flatten.trans ?_
    rw [List.perm_iff_count]
    intro x
    exact flatten_count commits x
  · intro c
    exact List.filter_sublist commits
  · intro subjects
    refine ⟨?_, ?_, ?_, ?_, ?_⟩
    · rw [List.perm_iff_count]
      intro x
      simp only [analyze_commits]
      rw [List.count_append, List.count_append, List.count_append]
      rw [count_filter_decide (fun c => classifyReduced c.data) x subjects RCat.breaking,
          count_filter_decide (fun c => classifyReduced c.data) x subjects RCat.feature,
          count_filter_decide (fun c => classifyReduced c.data) x subjects RCat.fix,
          count_filter_decide (fun c => classifyReduced c.data) x subjects RCat.other]
      cases hk : classifyReduced x.data <;> simp [hk]
    · exact List.filter_sublist subjects
    · exact List.filter_sublist subjects
    · exact List.filter_sublist subjects
    · exact List.filter_sublist subjects

theorem c7_witness :
    ((allCats.map (fun c => categorize_commits
        [⟨"h1", "a", "d1", "feat: one", ""⟩, ⟨"h2", "a", "d1", "fix: two", ""⟩] c)).flatten).Perm
      [⟨"h1", "a", "d1", "feat: one", ""⟩, ⟨"h2", "a", "d1", "fix: two", ""⟩] :=
  (c7_partition [⟨"h1", "a", "d1", "feat: one", ""⟩, ⟨"h2", "a", "d1", "fix: two", ""⟩]
    allCats (by decide) (fun c => by cases c <;> decide)).1

end Polaris

namespace Polaris

/--
**C9** (failing-input evaluation): on the existing document `"# Changelog\n"`
— a changelog that consists entirely of heading/blank lines, so it has no
versioned section header and no non-heading, non-blank line — the claim (and
the source's own `# Append after header` comment) requires the new section to
be appended after the preamble, i.e. at the end of the document.  The code
instead keeps the `header_end = 0` initialisation when its scan finds no
non-heading, non-blank line, and splices the new section (preceded by two
newlines) at position 0, before the entire preamble.
-/
theorem c9_fallback_prepends (new_section : String) :
    update_changelog_content "# Changelog\n" new_section
      = "\n\n" ++ new_section ++ "# Changelog\n" := rfl

end Polaris
